import Mathlib

/-!
Verification of the railmy deployment orchestrator against its design
specification.  The TypeScript sources are shallowly embedded: pure string
and classification logic becomes Lean functions, filesystem and process
state becomes explicit data passed through the functions, and fallible
operations return `Except`.
-/

/-! ## Name sanitizer (src/src/utils/security.ts, `sanitizeProjectName`)

The source lowercases the name, replaces every character outside the class
`[a-z0-9-]` with a hyphen, collapses every run of hyphens to a single
hyphen, and strips one leading and one trailing hyphen.  Characters are
compared through their code points (`Char.toNat`); the regex character
class `[a-z0-9-]` is the three ASCII ranges below. -/

/-- Holds exactly for the characters matched by `[a-z0-9-]`. -/
def isAllowedChar (c : Char) : Bool :=
  (97 ≤ c.toNat && c.toNat ≤ 122) || (48 ≤ c.toNat && c.toNat ≤ 57) || c.toNat == 45

/-- ASCII lowering, the effect of `toLowerCase` on one character. -/
def charLower (c : Char) : Char :=
  if 65 ≤ c.toNat ∧ c.toNat ≤ 90 then Char.ofNat (c.toNat + 32) else c

/-- One character of the replacement of everything outside `[a-z0-9-]`. -/
def replChar (c : Char) : Char :=
  if isAllowedChar c then c else '-'

/-- The hyphen-run replacement: each maximal run of hyphens becomes one hyphen. -/
def collapseHyphens : List Char → List Char
  | c :: d :: t =>
    if c = '-' ∧ d = '-' then collapseHyphens (d :: t)
    else c :: collapseHyphens (d :: t)
  | l => l

/-- The leading-anchor alternative of the edge-hyphen strip: one leading hyphen goes. -/
def dropLeadingHyphen : List Char → List Char
  | [] => []
  | c :: t => if c = '-' then t else c :: t

/-- The trailing-anchor alternative of the edge-hyphen strip: one trailing hyphen goes. -/
def dropTrailingHyphen : List Char → List Char
  | [] => []
  | [c] => if c = '-' then [] else [c]
  | c :: d :: t => c :: dropTrailingHyphen (d :: t)

/-- The sanitizer chain on character lists, in source order. -/
def sanitizeChars (l : List Char) : List Char :=
  dropTrailingHyphen (dropLeadingHyphen (collapseHyphens ((l.map charLower).map replChar)))

/-- Function `sanitizeProjectName` from src/src/utils/security.ts. -/
def sanitizeProjectName (s : String) : String :=
  ⟨sanitizeChars s.data⟩

/-- Does the list start with a hyphen? -/
def headIsHyphen : List Char → Bool
  | [] => false
  | c :: _ => decide (c = '-')

/-- Does the list end with a hyphen? -/
def lastIsHyphen : List Char → Bool
  | [] => false
  | [c] => decide (c = '-')
  | _ :: d :: t => lastIsHyphen (d :: t)

/-- No two consecutive hyphens anywhere. -/
def noDoubleHyphen : List Char → Bool
  | c :: d :: t => if c = '-' ∧ d = '-' then false else noDoubleHyphen (d :: t)
  | _ => true

theorem collapseHyphens_cons_cons (c d : Char) (t : List Char) :
    collapseHyphens (c :: d :: t) =
      if c = '-' ∧ d = '-' then collapseHyphens (d :: t)
      else c :: collapseHyphens (d :: t) := rfl

theorem dropLeadingHyphen_cons (c : Char) (t : List Char) :
    dropLeadingHyphen (c :: t) = if c = '-' then t else c :: t := rfl

theorem dropTrailingHyphen_singleton (c : Char) :
    dropTrailingHyphen [c] = if c = '-' then [] else [c] := rfl

theorem dropTrailingHyphen_cons_cons (c d : Char) (t : List Char) :
    dropTrailingHyphen (c :: d :: t) = c :: dropTrailingHyphen (d :: t) := rfl

theorem noDoubleHyphen_cons_cons (c d : Char) (t : List Char) :
    noDoubleHyphen (c :: d :: t) =
      if c = '-' ∧ d = '-' then false else noDoubleHyphen (d :: t) := rfl

theorem replChar_allowed (c : Char) : isAllowedChar (replChar c) = true := by
  unfold replChar
  by_cases h : isAllowedChar c = true
  · rw [if_pos h]; exact h
  · rw [if_neg h]; decide

theorem map_replChar_all (l : List Char) : (l.map replChar).all isAllowedChar = true := by
  induction l with
  | nil => rfl
  | cons c t ih => simp [List.all_cons, replChar_allowed, ih]

theorem charLower_of_allowed (c : Char) (h : isAllowedChar c = true) : charLower c = c := by
  unfold isAllowedChar at h
  unfold charLower
  rw [if_neg]
  intro hc
  simp only [Bool.or_eq_true, Bool.and_eq_true, decide_eq_true_eq, beq_iff_eq] at h
  omega

theorem replChar_of_allowed (c : Char) (h : isAllowedChar c = true) : replChar c = c := by
  simp [replChar, h]

theorem map_id_of_all {f : Char → Char} :
    ∀ l : List Char, (∀ c ∈ l, f c = c) → l.map f = l
  | [], _ => rfl
  | c :: t, h => by
    have hc := h c (List.mem_cons_self c t)
    have ht := map_id_of_all t (fun d hd => h d (List.mem_cons_of_mem c hd))
    simp [hc, ht]

theorem noDoubleHyphen_tail (c : Char) (t : List Char)
    (h : noDoubleHyphen (c :: t) = true) : noDoubleHyphen t = true := by
  cases t with
  | nil => rfl
  | cons d t' =>
    unfold noDoubleHyphen at h
    by_cases hcd : c = '-' ∧ d = '-'
    · rw [if_pos hcd] at h; exact absurd h (by simp)
    · rwa [if_neg hcd] at h

theorem collapseHyphens_all (P : Char → Bool) :
    ∀ l : List Char, l.all P = true → (collapseHyphens l).all P = true
  | [], h => h
  | [c], h => h
  | c :: d :: t, h => by
    have hc : P c = true := by simp [List.all_cons] at h; exact h.1
    have ht : (d :: t).all P = true := by simp [List.all_cons] at h ⊢; exact ⟨h.2.1, h.2.2⟩
    unfold collapseHyphens
    by_cases hcd : c = '-' ∧ d = '-'
    · rw [if_pos hcd]; exact collapseHyphens_all P (d :: t) ht
    · rw [if_neg hcd]
      simp [List.all_cons, hc]
      have := collapseHyphens_all P (d :: t) ht
      simpa [List.all_eq_true] using this

theorem collapseHyphens_cons :
    ∀ (c : Char) (t : List Char), ∃ r, collapseHyphens (c :: t) = c :: r := by
  intro c t
  induction t generalizing c with
  | nil => exact ⟨[], rfl⟩
  | cons d t' ih =>
    by_cases hcd : c = '-' ∧ d = '-'
    · obtain ⟨r, hr⟩ := ih d
      refine ⟨r, ?_⟩
      unfold collapseHyphens
      rw [if_pos hcd, hr, hcd.1, hcd.2]
    · exact ⟨collapseHyphens (d :: t'), by rw [collapseHyphens_cons_cons, if_neg hcd]⟩

theorem collapseHyphens_noDouble :
    ∀ l : List Char, noDoubleHyphen (collapseHyphens l) = true
  | [] => rfl
  | [_] => rfl
  | c :: d :: t => by
    by_cases hcd : c = '-' ∧ d = '-'
    · unfold collapseHyphens
      rw [if_pos hcd]
      exact collapseHyphens_noDouble (d :: t)
    · unfold collapseHyphens
      rw [if_neg hcd]
      obtain ⟨r, hr⟩ := collapseHyphens_cons d t
      rw [hr]
      unfold noDoubleHyphen
      rw [if_neg hcd]
      rw [← hr]
      exact collapseHyphens_noDouble (d :: t)

theorem collapseHyphens_of_noDouble :
    ∀ l : List Char, noDoubleHyphen l = true → collapseHyphens l = l
  | [], _ => rfl
  | [_], _ => rfl
  | c :: d :: t, h => by
    unfold noDoubleHyphen at h
    by_cases hcd : c = '-' ∧ d = '-'
    · rw [if_pos hcd] at h; exact absurd h (by simp)
    · rw [if_neg hcd] at h
      unfold collapseHyphens
      rw [if_neg hcd, collapseHyphens_of_noDouble (d :: t) h]

theorem dropLeadingHyphen_all (P : Char → Bool) (l : List Char)
    (h : l.all P = true) : (dropLeadingHyphen l).all P = true := by
  cases l with
  | nil => rfl
  | cons c t =>
    rw [dropLeadingHyphen_cons]
    by_cases hc : c = '-'
    · rw [if_pos hc]; simp [List.all_cons] at h; simpa [List.all_eq_true] using h.2
    · rwa [if_neg hc]

theorem dropLeadingHyphen_noDouble (l : List Char)
    (h : noDoubleHyphen l = true) : noDoubleHyphen (dropLeadingHyphen l) = true := by
  cases l with
  | nil => rfl
  | cons c t =>
    rw [dropLeadingHyphen_cons]
    by_cases hc : c = '-'
    · rw [if_pos hc]; exact noDoubleHyphen_tail c t h
    · rwa [if_neg hc]

theorem dropLeadingHyphen_head (l : List Char)
    (h : noDoubleHyphen l = true) : headIsHyphen (dropLeadingHyphen l) = false := by
  cases l with
  | nil => rfl
  | cons c t =>
    rw [dropLeadingHyphen_cons]
    by_cases hc : c = '-'
    · rw [if_pos hc]
      cases t with
      | nil => rfl
      | cons d t' =>
        unfold noDoubleHyphen at h
        by_cases hcd : c = '-' ∧ d = '-'
        · rw [if_pos hcd] at h; exact absurd h (by simp)
        · have hd : ¬ d = '-' := fun hd => hcd ⟨hc, hd⟩
          simp [headIsHyphen, hd]
    · rw [if_neg hc]; simp [headIsHyphen, hc]

theorem dropLeadingHyphen_last (l : List Char)
    (h : lastIsHyphen l = false) : lastIsHyphen (dropLeadingHyphen l) = false := by
  cases l with
  | nil => rfl
  | cons c t =>
    rw [dropLeadingHyphen_cons]
    by_cases hc : c = '-'
    · rw [if_pos hc]
      cases t with
      | nil => rfl
      | cons d t' => unfold lastIsHyphen at h; exact h
    · rwa [if_neg hc]

theorem dropLeadingHyphen_of_noHead (l : List Char)
    (h : headIsHyphen l = false) : dropLeadingHyphen l = l := by
  cases l with
  | nil => rfl
  | cons c t =>
    unfold headIsHyphen at h
    simp only [decide_eq_false_iff_not] at h
    rw [dropLeadingHyphen_cons, if_neg h]

theorem dropTrailingHyphen_all (P : Char → Bool) :
    ∀ l : List Char, l.all P = true → (dropTrailingHyphen l).all P = true
  | [], h => h
  | [c], h => by
    unfold dropTrailingHyphen
    by_cases hc : c = '-'
    · rw [if_pos hc]; rfl
    · rwa [if_neg hc]
  | c :: d :: t, h => by
    unfold dropTrailingHyphen
    simp only [List.all_cons, Bool.and_eq_true] at h ⊢
    exact ⟨h.1, by
      have := dropTrailingHyphen_all P (d :: t) (by simp [List.all_cons, h.2.1, h.2.2])
      simpa [List.all_eq_true] using this⟩

theorem dropTrailingHyphen_noDouble :
    ∀ l : List Char, noDoubleHyphen l = true → noDoubleHyphen (dropTrailingHyphen l) = true
  | [], _ => rfl
  | [c], _ => by
    unfold dropTrailingHyphen
    by_cases hc : c = '-'
    · rw [if_pos hc]; rfl
    · rw [if_neg hc]; rfl
  | c :: d :: t, h => by
    have hcd : ¬ (c = '-' ∧ d = '-') := by
      intro hcd
      unfold noDoubleHyphen at h
      rw [if_pos hcd] at h
      exact absurd h (by simp)
    have ht : noDoubleHyphen (d :: t) = true := noDoubleHyphen_tail c (d :: t) h
    show noDoubleHyphen (c :: dropTrailingHyphen (d :: t)) = true
    cases t with
    | nil =>
      unfold dropTrailingHyphen
      by_cases hd : d = '-'
      · rw [if_pos hd]; rfl
      · rw [if_neg hd]; unfold noDoubleHyphen; rw [if_neg hcd]; rfl
    | cons e t' =>
      have step : dropTrailingHyphen (d :: e :: t') = d :: dropTrailingHyphen (e :: t') := rfl
      rw [step]
      unfold noDoubleHyphen
      rw [if_neg hcd, ← step]
      exact dropTrailingHyphen_noDouble (d :: e :: t') ht

theorem dropTrailingHyphen_head (l : List Char)
    (h : headIsHyphen l = false) : headIsHyphen (dropTrailingHyphen l) = false := by
  cases l with
  | nil => rfl
  | cons c t =>
    unfold headIsHyphen at h
    simp only [decide_eq_false_iff_not] at h
    cases t with
    | nil =>
      unfold dropTrailingHyphen
      rw [if_neg h]
      simp [headIsHyphen, h]
    | cons d t' =>
      show headIsHyphen (c :: dropTrailingHyphen (d :: t')) = false
      simp [headIsHyphen, h]

theorem dropTrailingHyphen_last :
    ∀ l : List Char, noDoubleHyphen l = true → lastIsHyphen (dropTrailingHyphen l) = false
  | [], _ => rfl
  | [c], _ => by
    unfold dropTrailingHyphen
    by_cases hc : c = '-'
    · rw [if_pos hc]; rfl
    · rw [if_neg hc]; simp [lastIsHyphen, hc]
  | c :: d :: t, h => by
    have hcd : ¬ (c = '-' ∧ d = '-') := by
      intro hcd
      unfold noDoubleHyphen at h
      rw [if_pos hcd] at h
      exact absurd h (by simp)
    have ht : noDoubleHyphen (d :: t) = true := noDoubleHyphen_tail c (d :: t) h
    show lastIsHyphen (c :: dropTrailingHyphen (d :: t)) = false
    cases t with
    | nil =>
      unfold dropTrailingHyphen
      by_cases hd : d = '-'
      · rw [if_pos hd]
        have hc : ¬ c = '-' := fun hc => hcd ⟨hc, hd⟩
        simp [lastIsHyphen, hc]
      · rw [if_neg hd]
        simp [lastIsHyphen, hd]
    | cons e t' =>
      have step : dropTrailingHyphen (d :: e :: t') = d :: dropTrailingHyphen (e :: t') := rfl
      rw [step]
      show lastIsHyphen (d :: dropTrailingHyphen (e :: t')) = false
      rw [← step]
      exact dropTrailingHyphen_last (d :: e :: t') ht

theorem dropTrailingHyphen_of_noLast :
    ∀ l : List Char, lastIsHyphen l = false → dropTrailingHyphen l = l
  | [], _ => rfl
  | [c], h => by
    unfold lastIsHyphen at h
    simp only [decide_eq_false_iff_not] at h
    unfold dropTrailingHyphen
    rw [if_neg h]
  | c :: d :: t, h => by
    have ht : lastIsHyphen (d :: t) = false := h
    show c :: dropTrailingHyphen (d :: t) = c :: d :: t
    rw [dropTrailingHyphen_of_noLast (d :: t) ht]

/-- The shape invariant of sanitizer output: only `[a-z0-9-]` characters,
no hyphen at either end, no two consecutive hyphens. -/
def isCleanChars (l : List Char) : Bool :=
  l.all isAllowedChar && !headIsHyphen l && !lastIsHyphen l && noDoubleHyphen l

theorem sanitizeChars_clean (l : List Char) : isCleanChars (sanitizeChars l) = true := by
  have h1 : ((l.map charLower).map replChar).all isAllowedChar = true :=
    map_replChar_all (l.map charLower)
  have h2 := collapseHyphens_all isAllowedChar _ h1
  have h3 := collapseHyphens_noDouble ((l.map charLower).map replChar)
  have h4 := dropLeadingHyphen_all isAllowedChar _ h2
  have h5 := dropLeadingHyphen_noDouble _ h3
  have h6 := dropLeadingHyphen_head _ h3
  have h7 := dropTrailingHyphen_all isAllowedChar _ h4
  have h8 := dropTrailingHyphen_noDouble _ h5
  have h9 := dropTrailingHyphen_head _ h6
  have h10 := dropTrailingHyphen_last _ h5
  have hs : sanitizeChars l =
      dropTrailingHyphen (dropLeadingHyphen
        (collapseHyphens ((l.map charLower).map replChar))) := rfl
  unfold isCleanChars
  rw [hs, h7, h8, h9, h10]
  rfl

theorem sanitizeChars_of_clean (l : List Char)
    (h : isCleanChars l = true) : sanitizeChars l = l := by
  unfold isCleanChars at h
  simp only [Bool.and_eq_true, Bool.not_eq_true'] at h
  obtain ⟨⟨⟨hall, hhead⟩, hlast⟩, hnd⟩ := h
  have hall' : ∀ c ∈ l, isAllowedChar c = true := by simpa [List.all_eq_true] using hall
  unfold sanitizeChars
  rw [map_id_of_all l (fun c hc => charLower_of_allowed c (hall' c hc))]
  rw [map_id_of_all l (fun c hc => replChar_of_allowed c (hall' c hc))]
  rw [collapseHyphens_of_noDouble l hnd]
  rw [dropLeadingHyphen_of_noHead l hhead]
  exact dropTrailingHyphen_of_noLast l hlast

/-- C9: the sanitizer is idempotent and its output is clean. -/
theorem sanitizeProjectName_idempotent_and_clean (x : String) :
    sanitizeProjectName (sanitizeProjectName x) = sanitizeProjectName x
    ∧ (sanitizeProjectName x).data.all isAllowedChar = true
    ∧ headIsHyphen (sanitizeProjectName x).data = false
    ∧ lastIsHyphen (sanitizeProjectName x).data = false
    ∧ noDoubleHyphen (sanitizeProjectName x).data = true := by
  have hdata : (sanitizeProjectName x).data = sanitizeChars x.data := rfl
  have hclean := sanitizeChars_clean x.data
  have hid : sanitizeProjectName (sanitizeProjectName x) = sanitizeProjectName x := by
    show String.mk (sanitizeChars (sanitizeChars x.data)) = String.mk (sanitizeChars x.data)
    rw [sanitizeChars_of_clean (sanitizeChars x.data) hclean]
  refine ⟨hid, ?_, ?_, ?_, ?_⟩ <;>
    (rw [hdata]; unfold isCleanChars at hclean;
     simp only [Bool.and_eq_true, Bool.not_eq_true'] at hclean)
  · exact hclean.1.1.1
  · exact hclean.1.1.2
  · exact hclean.1.2
  · exact hclean.2

/-! ## Port allocator (src/unnamed/part_000, `findAvailablePort` / `isPortInUse`)

The external socket-table probe (`ss`, `netstat`, `lsof`) is the
environment; it is modelled by the predicate `occ : Nat → Bool` giving
`isPortInUse`'s answer for every port.  `findAvailablePort` scans forward
from `startPort` for at most `maxAttempts` probes and falls back to the
original `startPort` when every probed port is occupied. -/

/-- The scanning loop of `findAvailablePort`: `fuel` is the number of
remaining attempts, `port` the next port to probe; on exhaustion the
original `startPort` is returned. -/
def portScan (occ : Nat → Bool) (startPort : Nat) : Nat → Nat → Nat
  | 0, _ => startPort
  | fuel + 1, port => if occ port then portScan occ startPort fuel (port + 1) else port

/-- Function `findAvailablePort(startPort, maxAttempts)`; the source defaults
`maxAttempts` to 10. -/
def findAvailablePort (occ : Nat → Bool) (startPort : Nat) (maxAttempts : Nat) : Nat :=
  portScan occ startPort maxAttempts startPort

theorem portScan_exhaust (occ : Nat → Bool) (sp : Nat) :
    ∀ (fuel port : Nat), (∀ j, j < fuel → occ (port + j) = true) →
      portScan occ sp fuel port = sp
  | 0, _, _ => rfl
  | fuel + 1, port, h => by
    have h0 : occ port = true := by simpa using h 0 (Nat.succ_pos fuel)
    unfold portScan
    rw [if_pos h0]
    exact portScan_exhaust occ sp fuel (port + 1)
      (fun j hj => by simpa [Nat.add_assoc, Nat.add_comm 1 j] using h (j + 1) (by omega))

theorem portScan_found (occ : Nat → Bool) (sp : Nat) :
    ∀ (m fuel port : Nat), (∀ j, j < m → occ (port + j) = true) →
      occ (port + m) = false → m < fuel →
      portScan occ sp fuel port = port + m := by
  intro m
  induction m with
  | zero =>
    intro fuel port _ hfree hlt
    obtain ⟨f, rfl⟩ := Nat.exists_eq_succ_of_ne_zero (Nat.pos_iff_ne_zero.mp hlt)
    unfold portScan
    rw [if_neg (by simpa using hfree)]
    omega
  | succ m ih =>
    intro fuel port hocc hfree hlt
    obtain ⟨f, rfl⟩ : ∃ f, fuel = f + 1 :=
      ⟨fuel - 1, by omega⟩
    have h0 : occ port = true := by simpa using hocc 0 (Nat.succ_pos m)
    unfold portScan
    rw [if_pos h0]
    have := ih f (port + 1)
      (fun j hj => by simpa [Nat.add_assoc, Nat.add_comm 1 j] using hocc (j + 1) (by omega))
      (by simpa [Nat.add_assoc, Nat.add_comm 1 m] using hfree)
      (by omega)
    rw [this]
    omega

/-- C4 (amended): a free preferred port is returned for any positive
attempt budget; the first free port `P+k+1` after occupied ports `P..P+k`
is returned when `k+1` is strictly below `maxAttempts`; and when all
probed ports are occupied the original preferred port is returned. -/
theorem findAvailablePort_spec (occ : Nat → Bool) (P n k : Nat) :
    (1 ≤ n → occ P = false → findAvailablePort occ P n = P)
    ∧ ((∀ i, i ≤ k → occ (P + i) = true) → occ (P + (k + 1)) = false →
        k + 1 < n → findAvailablePort occ P n = P + (k + 1))
    ∧ ((∀ i, i < n → occ (P + i) = true) → findAvailablePort occ P n = P) := by
  refine ⟨?_, ?_, ?_⟩
  · intro hn hfree
    obtain ⟨m, rfl⟩ : ∃ m, n = m + 1 := ⟨n - 1, by omega⟩
    unfold findAvailablePort portScan
    rw [if_neg (by simpa using hfree)]
  · intro hocc hfree hlt
    exact portScan_found occ P (k + 1) n P (fun j hj => hocc j (by omega)) hfree hlt
  · intro hocc
    exact portScan_exhaust occ P n P hocc

/-- Concrete instantiation of the C4 theorem: port 3000 occupied, 3001
free, two attempts allowed. -/
theorem findAvailablePort_spec_witness :
    (1 ≤ 2 → (fun p => p == 3000) 3005 = false →
        findAvailablePort (fun p => p == 3000) 3005 2 = 3005)
    ∧ ((∀ i, i ≤ 0 → (fun p => p == 3000) (3000 + i) = true) →
        (fun p => p == 3000) (3000 + (0 + 1)) = false →
        0 + 1 < 2 → findAvailablePort (fun p => p == 3000) 3000 2 = 3000 + (0 + 1))
    ∧ ((∀ i, i < 2 → (fun p => p == 3000) (3000 + i) = true) →
        findAvailablePort (fun p => p == 3000) 3000 2 = 3000) := by
  have h1 := (findAvailablePort_spec (fun p => p == 3000) 3005 2 0).1
  have h2 := (findAvailablePort_spec (fun p => p == 3000) 3000 2 0).2.1
  have h3 := (findAvailablePort_spec (fun p => p == 3000) 3000 2 0).2.2
  exact ⟨h1, h2, h3⟩

/-- C4 counterexample to the claim as stated: with `P..P+k` occupied
(`k = 0`), `P+k+1` free and `k+1 ≤ maxAttempts = 1`, the function
returns `P`, not `P+k+1`: the budget is exhausted before `P+k+1` is
probed. -/
theorem findAvailablePort_boundary_counterexample :
    (fun p => p == 3000) (3000 + 0) = true
    ∧ (fun p => p == 3000) (3000 + (0 + 1)) = false
    ∧ 0 + 1 ≤ 1
    ∧ findAvailablePort (fun p => p == 3000) 3000 1 = 3000
    ∧ findAvailablePort (fun p => p == 3000) 3000 1 ≠ 3000 + (0 + 1) := by
  refine ⟨by decide, by decide, by decide, by decide, by decide⟩

/-! ## Webhook signature verification (src/src/webhook/webhookServer.ts)

`verifySignature` computes `'sha256=' + hmacSha256Hex(secret, body)` and
compares it with the supplied header using `crypto.timingSafeEqual`.  The
HMAC itself lives in Node's `crypto` library (an external collaborator),
so it enters the model as an abstract function `hmacHex : secret → body →
hex digest`.  Buffers of the ASCII strings involved are modelled by their
character lists; `timingSafeEqual` throws a `RangeError` when the two
buffers differ in length and otherwise reports byte equality. -/

/-- Node's `crypto.timingSafeEqual` on the byte lists of two strings. -/
def timingSafeEqual (a b : List Char) : Except String Bool :=
  if a.length = b.length then .ok (decide (a = b))
  else .error "RangeError: Input buffers must have the same byte length"

/-- Function `verifySignature(body, signature, secret)`. -/
def verifySignature (hmacHex : String → String → String)
    (body signature secret : String) : Except String Bool :=
  timingSafeEqual signature.data ("sha256=" ++ hmacHex secret body).data

/-- The signature-checking prefix of the webhook request handler
(src/src/webhook/webhookServer.ts lines 54-143).  `restStatus` stands for
the status produced by the rest of the handler once the signature check
has passed.  A missing or empty header is rejected with 401; a comparison
that returns `false` is rejected with 401; a comparison that throws is
caught by the handler's surrounding catch and answered with 500. -/
def webhookSignatureResponse (hmacHex : String → String → String)
    (secret : Option String) (sigHeader : Option String) (body : String)
    (restStatus : Nat) : Nat :=
  match secret with
  | none => restStatus
  | some s =>
    match sigHeader with
    | none => 401
    | some sig =>
      if sig = "" then 401
      else
        match verifySignature hmacHex body sig s with
        | .ok true => restStatus
        | .ok false => 401
        | .error _ => 500

/-- Replace the character at index `i` of a string. -/
def flipCharAt (s : String) (i : Nat) (c : Char) : String :=
  ⟨s.data.set i c⟩

/-- The expected header is seven prefix bytes plus the digest bytes. -/
theorem sha256_prefix_length (x : String) :
    ("sha256=" ++ x).data.length = 7 + x.data.length := by
  rw [String.data_append, List.length_append]
  rw [show "sha256=".data.length = 7 from rfl]

/-- C7: the correctly computed digest verifies and leads past the
signature check, and flipping any single character of it makes
verification return `false` and the request be rejected with 401. -/
theorem verifySignature_correct_and_flip (hmacHex : String → String → String)
    (body secret : String) (rest : Nat) :
    verifySignature hmacHex body ("sha256=" ++ hmacHex secret body) secret = .ok true
    ∧ webhookSignatureResponse hmacHex (some secret)
        (some ("sha256=" ++ hmacHex secret body)) body rest = rest
    ∧ ∀ i c, ∀ hi : i < ("sha256=" ++ hmacHex secret body).data.length,
        c ≠ ("sha256=" ++ hmacHex secret body).data.get ⟨i, hi⟩ →
        verifySignature hmacHex body
          (flipCharAt ("sha256=" ++ hmacHex secret body) i c) secret = .ok false
        ∧ webhookSignatureResponse hmacHex (some secret)
            (some (flipCharAt ("sha256=" ++ hmacHex secret body) i c)) body rest = 401 := by
  set expected := "sha256=" ++ hmacHex secret body with hexp
  have hok : verifySignature hmacHex body expected secret = .ok true := by
    unfold verifySignature timingSafeEqual
    rw [if_pos rfl, decide_eq_true (Eq.refl expected.data)]
  have hplen : expected.data.length = 7 + (hmacHex secret body).data.length := by
    rw [hexp]; exact sha256_prefix_length (hmacHex secret body)
  have hne : expected ≠ "" := by
    intro h
    have hd : expected.data = [] := by rw [h]
    rw [hd] at hplen
    simp only [List.length_nil] at hplen
    omega
  refine ⟨hok, ?_, ?_⟩
  · simp only [webhookSignatureResponse]
    rw [if_neg hne, hok]
  · intro i c hi hc
    have hlen : (flipCharAt expected i c).data.length = expected.data.length := by
      unfold flipCharAt
      exact List.length_set expected.data i c
    have hdiff : (flipCharAt expected i c).data ≠ expected.data := by
      unfold flipCharAt
      intro h
      apply hc
      have h' : expected.data.set i c = expected.data := h
      have hset : (expected.data.set i c)[i]? = some c :=
        List.getElem?_set_eq_of_lt c hi
      rw [h'] at hset
      have hg : expected.data[i]? = some (expected.data.get ⟨i, hi⟩) :=
        List.getElem?_eq_getElem hi
      rw [hg] at hset
      exact (Option.some.inj hset).symm
    have hflip : verifySignature hmacHex body (flipCharAt expected i c) secret = .ok false := by
      unfold verifySignature timingSafeEqual
      rw [if_pos hlen, decide_eq_false hdiff]
    refine ⟨hflip, ?_⟩
    have hflipne : flipCharAt expected i c ≠ "" := by
      intro h
      have hl : (flipCharAt expected i c).data = [] := by rw [h]
      rw [hl] at hlen
      simp only [List.length_nil] at hlen
      omega
    simp only [webhookSignatureResponse]
    rw [if_neg hflipne, hflip]

/-- Concrete instantiation of the C7 theorem: a two-character digest,
flipping the first digest character. -/
theorem verifySignature_correct_and_flip_witness :
    verifySignature (fun _ _ => "ab") "body" ("sha256=" ++ "ab") "key" = .ok true
    ∧ webhookSignatureResponse (fun _ _ => "ab") (some "key")
        (some ("sha256=" ++ "ab")) "body" 200 = 200
    ∧ (verifySignature (fun _ _ => "ab") "body"
          (flipCharAt ("sha256=" ++ "ab") 7 'x') "key" = .ok false
        ∧ webhookSignatureResponse (fun _ _ => "ab") (some "key")
            (some (flipCharAt ("sha256=" ++ "ab") 7 'x')) "body" 200 = 401) := by
  have h := verifySignature_correct_and_flip (fun _ _ => "ab") "body" "key" 200
  exact ⟨h.1, h.2.1, h.2.2 7 'x' (by decide) (by decide)⟩

/-- C10: when a secret is configured and the header differs in byte
length from the expected `'sha256=' + digest`, `verifySignature` throws
(`timingSafeEqual` length mismatch) and the handler answers 500, whereas
a same-length mismatch is answered 401. -/
theorem webhook_length_mismatch_500 (hmacHex : String → String → String)
    (secret body sig : String) (rest : Nat)
    (hne : sig ≠ "")
    (hlen : sig.data.length ≠ ("sha256=" ++ hmacHex secret body).data.length) :
    (∃ e, verifySignature hmacHex body sig secret = .error e)
    ∧ webhookSignatureResponse hmacHex (some secret) (some sig) body rest = 500
    ∧ ∀ sig', sig'.data.length = ("sha256=" ++ hmacHex secret body).data.length →
        sig' ≠ "sha256=" ++ hmacHex secret body →
        webhookSignatureResponse hmacHex (some secret) (some sig') body rest = 401 := by
  have herr : verifySignature hmacHex body sig secret =
      .error "RangeError: Input buffers must have the same byte length" := by
    unfold verifySignature timingSafeEqual
    rw [if_neg hlen]
  refine ⟨⟨_, herr⟩, ?_, ?_⟩
  · simp only [webhookSignatureResponse]
    rw [if_neg hne, herr]
  · intro sig' hlen' hne'
    have hdata : sig'.data ≠ ("sha256=" ++ hmacHex secret body).data := by
      intro h
      exact hne' (String.ext h)
    have hv : verifySignature hmacHex body sig' secret = .ok false := by
      unfold verifySignature timingSafeEqual
      rw [if_pos hlen', decide_eq_false hdata]
    have hne'' : sig' ≠ "" := by
      intro h
      have hl : sig'.data = [] := by rw [h]
      rw [hl] at hlen'
      rw [sha256_prefix_length] at hlen'
      simp only [List.length_nil] at hlen'
      omega
    simp only [webhookSignatureResponse]
    rw [if_neg hne'', hv]

/-- Concrete instantiation of the C10 theorem: a nine-byte expected value
against a one-byte header (500) and a same-length wrong header (401). -/
theorem webhook_length_mismatch_500_witness :
    ((∃ e, verifySignature (fun _ _ => "ab") "body" "x" "key" = .error e)
      ∧ webhookSignatureResponse (fun _ _ => "ab") (some "key") (some "x") "body" 200 = 500
      ∧ ∀ sig', sig'.data.length = ("sha256=" ++ (fun _ _ => "ab") "key" "body").data.length →
          sig' ≠ "sha256=" ++ (fun _ _ => "ab") "key" "body" →
          webhookSignatureResponse (fun _ _ => "ab") (some "key") (some sig') "body" 200 = 401) := by
  exact webhook_length_mismatch_500 (fun _ _ => "ab") "key" "body" "x" 200
    (by decide) (by decide)

/-! ## Data model (src/src/types/index.ts) -/

/-- The `ProjectType` enum. -/
inductive ProjectType where
  | backend
  | frontend
  | monorepo
  | unknown
deriving DecidableEq, Repr

/-- The `PackageManager` enum. -/
inductive PackageManager where
  | npm
  | yarn
  | pnpm
deriving DecidableEq, Repr

/-- The fields of a `package.json` manifest that the analyzer inspects:
dependency names, devDependency names, truthiness of the `workspaces`
field, and the `scripts.build` / `scripts.start` entries. -/
structure PackageJson where
  dependencies : List String
  devDependencies : List String
  workspaces : Bool
  buildScript : Option String
  startScript : Option String
deriving DecidableEq, Repr

/-- The merged dependency map `{...dependencies, ...devDependencies}`. -/
def PackageJson.allDeps (p : PackageJson) : List String :=
  p.dependencies ++ p.devDependencies

/-- Does the merged dependency map contain `fw`? -/
def PackageJson.hasDep (p : PackageJson) (fw : String) : Bool :=
  p.allDeps.contains fw

/-- A directory inside the workspace (any depth), with its `package.json`
if present and its lock files.  `relPath` is the path relative to the
workspace root (for the first-level scan a path without a slash). -/
structure SubDir where
  relPath : String
  pkg : Option PackageJson
  pnpmLock : Bool
  yarnLock : Bool
deriving DecidableEq, Repr

/-- The filesystem state the analyzer reads: the root `package.json`,
presence of `nx.json` and root lock files, and the directories below. -/
structure Workspace where
  rootPkg : Option PackageJson
  nxJson : Bool
  pnpmLock : Bool
  yarnLock : Bool
  dirs : List SubDir
deriving DecidableEq, Repr

/-- Probe `fs.pathExists(projectPath/p)` for directories. -/
def Workspace.findDir (ws : Workspace) (p : String) : Option SubDir :=
  ws.dirs.find? (fun d => d.relPath == p)

/-- Directory `p` exists and holds a `package.json`. -/
def Workspace.dirHasPkg (ws : Workspace) (p : String) : Bool :=
  match ws.findDir p with
  | some d => d.pkg.isSome
  | none => false

/-! ## Project analyzer (src/src/utils/paths.ts, analyzer segment) -/

/-- Function `detectPackageManager`: lock-file precedence pnpm, then yarn, then npm. -/
def detectPackageManager (pnpmLock yarnLock : Bool) : PackageManager :=
  if pnpmLock then PackageManager.pnpm
  else if yarnLock then PackageManager.yarn
  else PackageManager.npm

/-- Lock-file detection run inside a sub-directory of the workspace. -/
def Workspace.dirPackageManager (ws : Workspace) (p : String) : PackageManager :=
  match ws.findDir p with
  | some d => detectPackageManager d.pnpmLock d.yarnLock
  | none => detectPackageManager false false

/-- Function `isMonorepo`: a truthy `workspaces` field, a turbo or lerna
dependency, or an `nx.json` file. -/
def isMonorepo (pkg : PackageJson) (ws : Workspace) : Bool :=
  pkg.workspaces || pkg.hasDep "turbo" || pkg.hasDep "lerna" || ws.nxJson

/-- The conventional frontend sub-paths searched by `analyzeMonorepo`. -/
def commonFrontendPaths : List String :=
  ["apps/frontend", "apps/web", "packages/frontend", "packages/web", "frontend", "web"]

/-- The conventional backend sub-paths searched by `analyzeMonorepo`. -/
def commonBackendPaths : List String :=
  ["apps/backend", "apps/api", "apps/server", "packages/backend", "packages/api",
   "packages/server", "backend", "api", "server", "customer", "products", "shopping",
   "orders", "payment"]

/-- The frontend framework names used by `analyzeMonorepo`'s fallback scan. -/
def scanFrontendFrameworks : List String :=
  ["react", "vue", "angular", "next", "nuxt", "svelte"]

/-- The backend framework names used by `analyzeMonorepo`'s fallback scan. -/
def scanBackendFrameworks : List String :=
  ["express", "fastify", "koa", "nest", "@nestjs/core"]

/-- A directory is visited by the fallback `readdir` scan when it is a
first-level entry (no slash in its relative path), not hidden, and not
`node_modules`. -/
def isScanCandidate (d : SubDir) : Bool :=
  !(d.relPath.startsWith ".") && d.relPath != "node_modules" && !(d.relPath.contains '/')

/-- One step of the fallback scan over `readdir` entries: the first
directory whose manifest declares a known frontend (resp. backend)
framework becomes the frontend (resp. backend) path. -/
def scanStep (acc : Option String × Option String) (d : SubDir) :
    Option String × Option String :=
  if isScanCandidate d then
    match d.pkg with
    | some pkg =>
      let isF := scanFrontendFrameworks.any (fun fw => pkg.hasDep fw)
      let isB := scanBackendFrameworks.any (fun fw => pkg.hasDep fw)
      let f := if isF && acc.1.isNone then some d.relPath else acc.1
      let b := if isB && acc.2.isNone then some d.relPath else acc.2
      (f, b)
    | none => acc
  else acc

/-- Function `analyzeMonorepo`: first the conventional sub-paths, each accepted
when the directory exists and holds a `package.json`; when neither list
matches, fall back to scanning the first-level directories. -/
def analyzeMonorepo (ws : Workspace) : Option String × Option String :=
  let frontendPath := commonFrontendPaths.find? (fun p => ws.dirHasPkg p)
  let backendPath := commonBackendPaths.find? (fun p => ws.dirHasPkg p)
  if frontendPath.isNone && backendPath.isNone then
    ws.dirs.foldl scanStep (none, none)
  else
    (frontendPath, backendPath)

/-- The `ProjectAnalysis` record from src/src/types/index.ts. -/
structure ProjectAnalysis where
  type : ProjectType
  packageManager : PackageManager
  hasBuildScript : Bool
  hasStartScript : Bool
  buildCommand : Option String
  startCommand : Option String
  frontendPath : Option String
  backendPath : Option String
  isSSR : Bool
  staticOutputDir : Option String
deriving DecidableEq, Repr

/-- The result of `detectFrontendType`. -/
structure FrontendInfo where
  isSSR : Bool
  staticOutputDir : Option String
deriving DecidableEq, Repr

/-- Function `detectFrontendType`: the fixed framework-to-rendering-mode mapping,
defaulting to client-side rendering into `dist`. -/
def detectFrontendType (pkg : PackageJson) : FrontendInfo :=
  if pkg.hasDep "next" then ⟨true, some ".next"⟩
  else if pkg.hasDep "nuxt" || pkg.hasDep "nuxt3" then ⟨true, some ".output"⟩
  else if pkg.hasDep "@remix-run/node" then ⟨true, none⟩
  else if pkg.hasDep "vite" then ⟨false, some "dist"⟩
  else if pkg.hasDep "react" && pkg.hasDep "react-scripts" then ⟨false, some "build"⟩
  else ⟨false, some "dist"⟩

/-- The backend framework names checked on the root manifest. -/
def backendFrameworks : List String :=
  ["express", "fastify", "koa", "nest", "@nestjs/core", "hapi", "restify"]

/-- The frontend framework names checked on the root manifest. -/
def frontendFrameworks : List String :=
  ["react", "vue", "angular", "svelte", "next", "nuxt", "remix"]

/-- The automatic classification performed when no usable explicit type
was supplied (the code after the user-specified branch). -/
def detectAuto (ws : Workspace) (pkg : PackageJson)
    (packageManager : PackageManager) : ProjectAnalysis :=
  if isMonorepo pkg ws then
    let fb := analyzeMonorepo ws
    ⟨ProjectType.monorepo, packageManager, pkg.buildScript.isSome, pkg.startScript.isSome,
     pkg.buildScript, pkg.startScript, fb.1, fb.2, false, none⟩
  else if backendFrameworks.any pkg.hasDep then
    ⟨ProjectType.backend, packageManager, pkg.buildScript.isSome, pkg.startScript.isSome,
     pkg.buildScript, pkg.startScript, none, none, false, none⟩
  else if frontendFrameworks.any pkg.hasDep then
    let fi := detectFrontendType pkg
    ⟨ProjectType.frontend, packageManager, pkg.buildScript.isSome, pkg.startScript.isSome,
     pkg.buildScript, pkg.startScript, none, none, fi.isSSR, fi.staticOutputDir⟩
  else
    ⟨ProjectType.unknown, packageManager, pkg.buildScript.isSome, pkg.startScript.isSome,
     pkg.buildScript, pkg.startScript, none, none, false, none⟩

/-- The analysis built when the user supplied an explicit type (other
than `unknown`): the explicit type short-circuits classification, a
monorepo indicator still rewrites the type to `monorepo`, and an
explicit `frontend` type still resolves the rendering mode. -/
def detectWithUserType (ws : Workspace) (pkg : PackageJson)
    (packageManager : PackageManager) (ut : ProjectType) : ProjectAnalysis :=
  let base : ProjectAnalysis :=
    ⟨ut, packageManager, pkg.buildScript.isSome, pkg.startScript.isSome,
     pkg.buildScript, pkg.startScript, none, none, false, none⟩
  let withMono :=
    if ut = ProjectType.monorepo || isMonorepo pkg ws then
      let fb := analyzeMonorepo ws
      { base with frontendPath := fb.1, backendPath := fb.2, type := ProjectType.monorepo }
    else base
  if ut = ProjectType.frontend then
    let fi := detectFrontendType pkg
    { withMono with isSSR := fi.isSSR, staticOutputDir := fi.staticOutputDir }
  else withMono

/-- Function `detectProjectType(projectPath, userSpecifiedType?)`.  With no root
manifest it runs `analyzeMonorepo` and either returns a monorepo analysis
or throws the classification error; with a root manifest it follows the
user-specified branch when a type other than `unknown` was supplied, and
the automatic classification otherwise. -/
def detectProjectType (ws : Workspace) (userType : Option ProjectType) :
    Except String ProjectAnalysis :=
  match ws.rootPkg with
  | none =>
    let fb := analyzeMonorepo ws
    if fb.1.isSome || fb.2.isSome then
      let packageManager :=
        match fb.2 with
        | some bp => ws.dirPackageManager bp
        | none =>
          match fb.1 with
          | some fp => ws.dirPackageManager fp
          | none => detectPackageManager false false
      .ok ⟨ProjectType.monorepo, packageManager, false, false, none, none,
           fb.1, fb.2, false, none⟩
    else
      .error "package.json bulunamadı ve monorepo yapısı tespit edilemedi"
  | some pkg =>
    let packageManager := detectPackageManager ws.pnpmLock ws.yarnLock
    match userType with
    | some ut =>
      if ut ≠ ProjectType.unknown then .ok (detectWithUserType ws pkg packageManager ut)
      else .ok (detectAuto ws pkg packageManager)
    | none => .ok (detectAuto ws pkg packageManager)

/-- C3 counterexample: a workspace with no manifest anywhere and an
explicit `backend` type still fails with the classification error, so an
explicit type does not prevent classification failure. -/
theorem detectProjectType_explicit_type_counterexample :
    detectProjectType ⟨none, false, false, false, []⟩ (some ProjectType.backend)
      = .error "package.json bulunamadı ve monorepo yapısı tespit edilemedi" := rfl

/-- C3 (amended): the analyzer fails with a classification error exactly
when the workspace has no root manifest and the monorepo sub-path search
finds neither a frontend nor a backend sub-path — independently of
whether an explicit type was supplied. -/
theorem detectProjectType_error_iff (ws : Workspace) (userType : Option ProjectType) :
    (∃ e, detectProjectType ws userType = .error e) ↔
      (ws.rootPkg = none ∧ (analyzeMonorepo ws).1 = none ∧ (analyzeMonorepo ws).2 = none) := by
  cases hroot : ws.rootPkg with
  | none =>
    by_cases h : ((analyzeMonorepo ws).1.isSome || (analyzeMonorepo ws).2.isSome) = true
    · have hok : ∃ a, detectProjectType ws userType = .ok a := by
        simp only [detectProjectType, hroot]
        rw [if_pos h]
        exact ⟨_, rfl⟩
      obtain ⟨a, ha⟩ := hok
      constructor
      · rintro ⟨e, he⟩
        rw [ha] at he
        simp at he
      · rintro ⟨-, h1, h2⟩
        rw [Bool.or_eq_true] at h
        rcases h with hx | hx
        · rw [h1] at hx; simp at hx
        · rw [h2] at hx; simp at hx
    · have herr : detectProjectType ws userType =
          .error "package.json bulunamadı ve monorepo yapısı tespit edilemedi" := by
        simp only [detectProjectType, hroot]
        rw [if_neg h]
      have hb1 : (analyzeMonorepo ws).1 = none := by
        cases hx : (analyzeMonorepo ws).1 with
        | none => rfl
        | some v => exact absurd (by rw [hx]; simp) h
      have hb2 : (analyzeMonorepo ws).2 = none := by
        cases hx : (analyzeMonorepo ws).2 with
        | none => rfl
        | some v => exact absurd (by rw [hx]; simp) h
      constructor
      · intro _
        exact ⟨rfl, hb1, hb2⟩
      · intro _
        exact ⟨_, herr⟩
  | some pkg =>
    constructor
    · rintro ⟨e, he⟩
      exfalso
      cases userType with
      | none =>
        simp only [detectProjectType, hroot] at he
        exact Except.noConfusion he
      | some ut =>
        simp only [detectProjectType, hroot] at he
        by_cases hut : ut ≠ ProjectType.unknown
        · rw [if_pos hut] at he; simp at he
        · rw [if_neg hut] at he; simp at he
    · rintro ⟨hn, -⟩
      simp at hn

/-- Concrete instantiation of the amended C3 theorem at the empty
workspace with an explicit type. -/
theorem detectProjectType_error_iff_witness :
    (∃ e, detectProjectType ⟨none, false, false, false, []⟩ (some ProjectType.backend)
        = .error e) ↔
      ((⟨none, false, false, false, []⟩ : Workspace).rootPkg = none
        ∧ (analyzeMonorepo ⟨none, false, false, false, []⟩).1 = none
        ∧ (analyzeMonorepo ⟨none, false, false, false, []⟩).2 = none) :=
  detectProjectType_error_iff ⟨none, false, false, false, []⟩ (some ProjectType.backend)

/-- C6 counterexample: a root manifest declaring both `express` (a fixed
backend framework name) and `turbo` classifies as `monorepo`, not
`backend`, because a monorepo-tool dependency overrides the framework
match even without a `workspaces` field. -/
theorem classification_backend_counterexample :
    (detectProjectType
        ⟨some ⟨["express", "turbo"], [], false, none, none⟩, false, false, false, []⟩
        none).map ProjectAnalysis.type = .ok ProjectType.monorepo
    ∧ (⟨["express", "turbo"], [], false, none, none⟩ : PackageJson).hasDep "express" = true
    ∧ (⟨["express", "turbo"], [], false, none, none⟩ : PackageJson).workspaces = false
    ∧ ProjectType.monorepo ≠ ProjectType.backend := by
  refine ⟨rfl, rfl, rfl, by decide⟩

/-- C6 (amended): for a workspace with a root manifest, a truthy
`workspaces` field forces the `monorepo` classification regardless of
dependencies; in the absence of every monorepo indicator a declared
backend framework yields `backend`, and a declared frontend framework
with no backend framework yields `frontend` with the rendering mode and
static output directory of the fixed `detectFrontendType` mapping. -/
theorem classification_rules (pkg : PackageJson) (ws : Workspace)
    (hroot : ws.rootPkg = some pkg) :
    (pkg.workspaces = true →
      (detectProjectType ws none).map ProjectAnalysis.type = .ok ProjectType.monorepo)
    ∧ (isMonorepo pkg ws = false → backendFrameworks.any pkg.hasDep = true →
      (detectProjectType ws none).map ProjectAnalysis.type = .ok ProjectType.backend)
    ∧ (isMonorepo pkg ws = false → backendFrameworks.any pkg.hasDep = false →
        frontendFrameworks.any pkg.hasDep = true →
      ∃ a, detectProjectType ws none = .ok a ∧ a.type = ProjectType.frontend
        ∧ a.isSSR = (detectFrontendType pkg).isSSR
        ∧ a.staticOutputDir = (detectFrontendType pkg).staticOutputDir) := by
  have hbase : detectProjectType ws none =
      .ok (detectAuto ws pkg (detectPackageManager ws.pnpmLock ws.yarnLock)) := by
    simp only [detectProjectType, hroot]
  refine ⟨?_, ?_, ?_⟩
  · intro hw
    have hm : isMonorepo pkg ws = true := by
      unfold isMonorepo
      rw [hw]
      simp
    rw [hbase]
    unfold detectAuto
    rw [if_pos hm]
    rfl
  · intro hm hb
    rw [hbase]
    unfold detectAuto
    rw [if_neg (by rw [hm]; simp), if_pos hb]
    rfl
  · intro hm hb hf
    rw [hbase]
    unfold detectAuto
    rw [if_neg (by rw [hm]; simp), if_neg (by rw [hb]; simp), if_pos hf]
    exact ⟨_, rfl, rfl, rfl, rfl⟩

/-- Concrete instantiation of the amended C6 theorem: a manifest with
only `express`, no monorepo indicator. -/
theorem classification_rules_witness :
    ((⟨["express"], [], false, none, none⟩ : PackageJson).workspaces = true →
      (detectProjectType ⟨some ⟨["express"], [], false, none, none⟩, false, false, false, []⟩
          none).map ProjectAnalysis.type = .ok ProjectType.monorepo)
    ∧ (isMonorepo ⟨["express"], [], false, none, none⟩
          ⟨some ⟨["express"], [], false, none, none⟩, false, false, false, []⟩ = false →
        backendFrameworks.any (⟨["express"], [], false, none, none⟩ : PackageJson).hasDep = true →
      (detectProjectType ⟨some ⟨["express"], [], false, none, none⟩, false, false, false, []⟩
          none).map ProjectAnalysis.type = .ok ProjectType.backend)
    ∧ (isMonorepo ⟨["express"], [], false, none, none⟩
          ⟨some ⟨["express"], [], false, none, none⟩, false, false, false, []⟩ = false →
        backendFrameworks.any (⟨["express"], [], false, none, none⟩ : PackageJson).hasDep = false →
        frontendFrameworks.any (⟨["express"], [], false, none, none⟩ : PackageJson).hasDep = true →
      ∃ a, detectProjectType ⟨some ⟨["express"], [], false, none, none⟩, false, false, false, []⟩
          none = .ok a ∧ a.type = ProjectType.frontend
        ∧ a.isSSR = (detectFrontendType ⟨["express"], [], false, none, none⟩).isSSR
        ∧ a.staticOutputDir
            = (detectFrontendType ⟨["express"], [], false, none, none⟩).staticOutputDir) :=
  classification_rules ⟨["express"], [], false, none, none⟩
    ⟨some ⟨["express"], [], false, none, none⟩, false, false, false, []⟩ rfl

/-! ## Metadata store (src/src/utils/paths.ts, metadata segment)

One `metadata.json` file per project, keyed by the project name inside
`APPS_DIR`.  The collection of record files is modelled as an association
list from project name to record; ISO timestamp strings are modelled as
naturals (order-isomorphic). -/

/-- The `ProjectMetadata` record. -/
structure ProjectMetadata where
  name : String
  repoUrl : String
  branch : String
  type : ProjectType
  port : Option Nat
  basePath : String
  createdAt : Nat
  updatedAt : Nat
  pm2ProcessName : Option String
  nginxConfigPath : Option String
  environment : Option String
  webhookEnabled : Option Bool
deriving DecidableEq, Repr

/-- The record files on disk: one entry per project name. -/
abbrev MetadataStore := List (String × ProjectMetadata)

/-- Function `saveMetadata`: write the record file for `m.name`, overwriting in full. -/
def saveMetadata (st : MetadataStore) (m : ProjectMetadata) : MetadataStore :=
  (m.name, m) :: st.filter (fun e => e.fst != m.name)

/-- Function `loadMetadata`: read the record file for `name`, `none` when absent. -/
def loadMetadata (st : MetadataStore) (name : String) : Option ProjectMetadata :=
  (st.find? (fun e => e.fst == name)).map Prod.snd

/-- Function `updateMetadata(projectName, updates)`: load, fail when absent,
otherwise merge the partial update over the existing record, stamp
`updatedAt`, and save.  The pair returns the thrown-or-ok outcome
together with the store after the call. -/
def updateMetadata (st : MetadataStore) (name : String)
    (updates : ProjectMetadata → ProjectMetadata) (now : Nat) :
    Except String Unit × MetadataStore :=
  match loadMetadata st name with
  | none => (.error ("Metadata bulunamadı: " ++ name), st)
  | some existing =>
    let updated := { updates existing with updatedAt := now }
    (.ok (), saveMetadata st updated)

/-- Function `deleteMetadata`: remove the record file when present. -/
def deleteMetadata (st : MetadataStore) (name : String) : MetadataStore :=
  st.filter (fun e => e.fst != name)

/-- C8: `updateMetadata` on a name with no existing record fails with the
not-found error and leaves the store untouched. -/
theorem updateMetadata_missing_no_write (st : MetadataStore) (name : String)
    (updates : ProjectMetadata → ProjectMetadata) (now : Nat)
    (h : loadMetadata st name = none) :
    (updateMetadata st name updates now).fst = .error ("Metadata bulunamadı: " ++ name)
    ∧ (updateMetadata st name updates now).snd = st := by
  unfold updateMetadata
  rw [h]
  exact ⟨rfl, rfl⟩

/-- Concrete instantiation of the C8 theorem on the empty store. -/
theorem updateMetadata_missing_no_write_witness :
    (updateMetadata [] "api" id 5).fst = .error ("Metadata bulunamadı: " ++ "api")
    ∧ (updateMetadata [] "api" id 5).snd = [] :=
  updateMetadata_missing_no_write [] "api" id 5 rfl

/-! ## Reverse-proxy config generator (installer-file segment, the current
`generateNginxConfig` / `reloadNginx`)

The routing-shape selection and its error cases are in scope; the config
text itself is string templating (out of scope).  The external outcomes —
whether `sudo cp` into the proxy directory succeeds and whether the
`nginx -t` syntax probe succeeds — are booleans supplied by the caller.
In the current source the `nginx -t` failure branch only logs a warning
(the former `throw` is commented out), and both reload attempts catch
their errors, so `reloadNginx` never throws. -/

/-- The options record of `generateNginxConfig`. -/
structure NginxOptions where
  projectName : String
  projectPath : String
  projectType : ProjectType
  analysis : ProjectAnalysis
  port : Option Nat
  basePath : Option String
  domain : Option String

/-- Function `getNginxConfigPath` from src/src/utils/paths.ts. -/
def getNginxConfigPath (projectName : String) : String :=
  "/etc/nginx/conf.d/" ++ (sanitizeProjectName projectName) ++ ".conf"

/-- The three routing shapes a generated config can take. -/
inductive NginxShape where
  | static
  | proxy (port : Nat)
  | combined (port : Nat)
deriving DecidableEq, Repr

/-- The shape-selection prefix of `generateNginxConfig`: static for a
non-SSR frontend; proxy for backend or SSR (port required); combined for
monorepo (port required); error otherwise. -/
def chooseNginxShape (o : NginxOptions) : Except String NginxShape :=
  if o.projectType = ProjectType.frontend ∧ o.analysis.isSSR = false then
    .ok NginxShape.static
  else if o.projectType = ProjectType.backend ∨ o.analysis.isSSR = true then
    match o.port with
    | none => .error "Backend için port gerekli"
    | some p => .ok (NginxShape.proxy p)
  else if o.projectType = ProjectType.monorepo then
    match o.port with
    | none => .error "Monorepo için backend port gerekli"
    | some p => .ok (NginxShape.combined p)
  else
    .error "Desteklenmeyen proje tipi"

/-- Function `generateNginxConfig`: select the shape, install the config with
elevated privilege (failure throws), then run the `nginx -t` syntax
probe, whose failure is only logged — the config path is returned either
way. -/
def generateNginxConfig (o : NginxOptions) (sudoCpOk : Bool) (syntaxOk : Bool) :
    Except String String :=
  match chooseNginxShape o with
  | .error e => .error e
  | .ok _ =>
    if sudoCpOk = false then .error "Nginx config write failed"
    else
      -- a failed syntax probe is reported as a warning and does not throw
      .ok (getNginxConfigPath o.projectName)

/-- Function `reloadNginx`: try a privileged reload, fall back to a plain
reload, and log a warning when both fail — no error escapes. -/
def reloadNginx (sudoReloadOk plainReloadOk : Bool) : Except String Unit :=
  if sudoReloadOk = true then .ok ()
  else if plainReloadOk = true then .ok ()
  else .ok ()

/-! ## Pipeline orchestrator (src/unnamed/part_002, `deploy` and the
`update` command)

Each pipeline stage calls out to an external subsystem; the outcome of
each call (the value returned or the error thrown) is collected in a
`DeployEnv` the orchestrator consumes in source order.  A monorepo runs
the install/build/supervisor stages per sub-package; a failure of any
sub-invocation is a failure of that stage's `Except` value. -/

/-- The stage outcomes and the port-probe environment of one `deploy`. -/
structure DeployEnv where
  occupied : Nat → Bool
  cloneResult : Except String String
  analysisResult : Except String ProjectAnalysis
  installResult : Except String Unit
  buildResult : Except String Unit
  pm2Result : Except String String
  nginxResult : Except String String

/-- The `DeployConfig` record (src/src/types/index.ts plus the later environment and
webhook fields used by part_002). -/
structure DeployConfig where
  repoUrl : String
  branch : String
  projectType : Option ProjectType
  port : Option Nat
  projectName : String
  basePath : Option String
  environment : Option String
  webhookEnabled : Option Bool

/-- The `DeployResult` record (src/src/types/index.ts; log paths omitted). -/
structure DeployResult where
  success : Bool
  projectPath : String
  port : Option Nat
  nginxConfigPath : Option String
  pm2ProcessName : Option String
  error : Option String
deriving DecidableEq, Repr

/-- The failure result built in `deploy`'s catch block. -/
def deployFail (projectPath e : String) : DeployResult :=
  ⟨false, projectPath, none, none, none, some e⟩

/-- The pre-pipeline port resolution: a requested port is passed through
`findAvailablePort` (default budget 10); no request means no port. -/
def resolvePort (occ : Nat → Bool) (port : Option Nat) : Option Nat :=
  match port with
  | some p => some (findAvailablePort occ p 10)
  | none => none

/-- The metadata record persisted at the end of a successful `deploy`. -/
def mkDeployRecord (cfg : DeployConfig) (a : ProjectAnalysis) (finalPort : Option Nat)
    (pm2Name : Option String) (nginxPath : String) (now : Nat) : ProjectMetadata :=
  ⟨cfg.projectName, cfg.repoUrl, cfg.branch, a.type, finalPort, cfg.basePath.getD "/",
   now, now, pm2Name, some nginxPath, some (cfg.environment.getD "production"),
   some (cfg.webhookEnabled.getD false)⟩

/-- Function `deploy`: stages in source order, each thrown error caught by the
single catch block which returns an unsuccessful result; the metadata
record is saved after the last stage, just before the success result. -/
def deploy (env : DeployEnv) (cfg : DeployConfig) (now : Nat) (store : MetadataStore) :
    DeployResult × MetadataStore :=
  let finalPort := resolvePort env.occupied cfg.port
  match env.cloneResult with
  | .error e => (deployFail "" e, store)
  | .ok projectPath =>
    match env.analysisResult with
    | .error e => (deployFail projectPath e, store)
    | .ok analysis =>
      if analysis.type = ProjectType.unknown then
        (deployFail projectPath
          "Proje tipi tespit edilemedi. Lütfen --type parametresi ile belirtin.", store)
      else
        match env.installResult with
        | .error e => (deployFail projectPath e, store)
        | .ok _ =>
          match env.buildResult with
          | .error e => (deployFail projectPath e, store)
          | .ok _ =>
            let pm2Step : Except String (Option String) :=
              if analysis.type = ProjectType.frontend ∧ analysis.isSSR = false then
                -- static frontend: the supervisor stage is skipped
                .ok none
              else
                match env.pm2Result with
                | .ok s => .ok (some s)
                | .error e => .error e
            match pm2Step with
            | .error e => (deployFail projectPath e, store)
            | .ok pm2Name =>
              match env.nginxResult with
              | .error e => (deployFail projectPath e, store)
              | .ok nginxPath =>
                -- step 7, reloadNginx, cannot throw; step 8 saves the record
                let record := mkDeployRecord cfg analysis finalPort pm2Name nginxPath now
                (⟨true, projectPath, finalPort, some nginxPath, pm2Name, none⟩,
                 saveMetadata store record)

/-- Is the `Except` outcome a success? -/
def isOkE {α : Type} (e : Except String α) : Bool :=
  match e with
  | .ok _ => true
  | .error _ => false

/-- All stages of `deploy` succeed: clone and analysis return, the type
is known, install and build return, the supervisor stage returns or is
skipped for a static frontend, and the config generator returns. -/
def deployStagesOk (env : DeployEnv) : Bool :=
  match env.cloneResult with
  | .error _ => false
  | .ok _ =>
    match env.analysisResult with
    | .error _ => false
    | .ok a =>
      decide (a.type ≠ ProjectType.unknown) && isOkE env.installResult
        && isOkE env.buildResult
        && (decide (a.type = ProjectType.frontend ∧ a.isSSR = false) || isOkE env.pm2Result)
        && isOkE env.nginxResult

/-- The analysis carried by a successful analysis outcome (an arbitrary
placeholder otherwise; only used when all stages succeeded). -/
def analysisOf (e : Except String ProjectAnalysis) : ProjectAnalysis :=
  match e with
  | .ok a => a
  | .error _ =>
    ⟨ProjectType.unknown, PackageManager.npm, false, false, none, none, none, none, false, none⟩

/-- The config path carried by a successful config-generation outcome. -/
def nginxPathOf (e : Except String String) : String :=
  match e with
  | .ok s => s
  | .error _ => ""

theorem deploy_characterization (env : DeployEnv) (cfg : DeployConfig) (now : Nat)
    (store : MetadataStore) :
    (deploy env cfg now store).fst.success = deployStagesOk env
    ∧ (deployStagesOk env = false → (deploy env cfg now store).snd = store)
    ∧ (deployStagesOk env = true →
        (deploy env cfg now store).snd = saveMetadata store
          (mkDeployRecord cfg (analysisOf env.analysisResult)
            (resolvePort env.occupied cfg.port)
            (deploy env cfg now store).fst.pm2ProcessName
            (nginxPathOf env.nginxResult) now)) := by
  obtain ⟨occ, cl, an, inst, bld, pm2, ngx⟩ := env
  cases cl with
  | error e => simp [deploy, deployStagesOk, deployFail]
  | ok projectPath =>
    cases an with
    | error e => simp [deploy, deployStagesOk, deployFail]
    | ok a =>
      by_cases hunk : a.type = ProjectType.unknown
      · simp [deploy, deployStagesOk, deployFail, hunk]
      · cases inst with
        | error e => simp [deploy, deployStagesOk, deployFail, hunk, isOkE]
        | ok u =>
          cases bld with
          | error e => simp [deploy, deployStagesOk, deployFail, hunk, isOkE]
          | ok v =>
            by_cases hfe : a.type = ProjectType.frontend ∧ a.isSSR = false
            · cases ngx with
              | error e => simp [deploy, deployStagesOk, deployFail, hunk, hfe, isOkE]
              | ok np =>
                simp [deploy, deployStagesOk, deployFail, hunk, hfe, isOkE,
                  analysisOf, nginxPathOf]
            · cases pm2 with
              | error e => simp [deploy, deployStagesOk, deployFail, hunk, hfe, isOkE]
              | ok s =>
                cases ngx with
                | error e => simp [deploy, deployStagesOk, deployFail, hunk, hfe, isOkE]
                | ok np =>
                  simp [deploy, deployStagesOk, deployFail, hunk, hfe, isOkE,
                    analysisOf, nginxPathOf]

/-- C1: the record is persisted exactly when every pipeline stage
succeeded — the deploy result is successful iff all stages are ok, a
failed deploy leaves the store untouched, and a successful deploy ends
with the record saved. -/
theorem deploy_record_iff_success (env : DeployEnv) (cfg : DeployConfig) (now : Nat)
    (store : MetadataStore) :
    (deploy env cfg now store).fst.success = deployStagesOk env
    ∧ (deployStagesOk env = false → (deploy env cfg now store).snd = store)
    ∧ (deployStagesOk env = true →
        (deploy env cfg now store).snd = saveMetadata store
          (mkDeployRecord cfg (analysisOf env.analysisResult)
            (resolvePort env.occupied cfg.port)
            (deploy env cfg now store).fst.pm2ProcessName
            (nginxPathOf env.nginxResult) now)) :=
  deploy_characterization env cfg now store

/-- The stage outcomes of one fully successful backend deploy. -/
def c1Env : DeployEnv :=
  ⟨fun _ => false, .ok "/var/apps/api",
   .ok ⟨ProjectType.backend, PackageManager.npm, true, true, some "tsc", some "node dist",
        none, none, false, none⟩,
   .ok (), .ok (), .ok "api", .ok "/etc/nginx/conf.d/api.conf"⟩

/-- The configuration of that deploy. -/
def c1Cfg : DeployConfig :=
  ⟨"https://github.com/u/r", "main", none, some 3000, "api", none, none, none⟩

/-- Concrete instantiation of the C1 theorem: the successful deploy above
saves its record into the empty store. -/
theorem deploy_record_iff_success_witness :
    (deploy c1Env c1Cfg 7 []).snd = saveMetadata []
      (mkDeployRecord c1Cfg (analysisOf c1Env.analysisResult)
        (resolvePort c1Env.occupied c1Cfg.port)
        (deploy c1Env c1Cfg 7 []).fst.pm2ProcessName
        (nginxPathOf c1Env.nginxResult) 7) :=
  (deploy_record_iff_success c1Env c1Cfg 7 []).2.2 rfl

/-- C2: with the earlier stages successful, a failed `nginx -t` syntax
probe still lets `generateNginxConfig` return the config path, a failed
reload never throws, and the deploy result is still successful. -/
theorem nginx_validation_failure_is_warning (o : NginxOptions) (shape : NginxShape)
    (env : DeployEnv) (cfg : DeployConfig) (now : Nat) (store : MetadataStore)
    (a : ProjectAnalysis) (pp : String)
    (hshape : chooseNginxShape o = .ok shape)
    (hclone : env.cloneResult = .ok pp)
    (hana : env.analysisResult = .ok a)
    (hunk : a.type ≠ ProjectType.unknown)
    (hinst : env.installResult = .ok ())
    (hbld : env.buildResult = .ok ())
    (hpm2 : (a.type = ProjectType.frontend ∧ a.isSSR = false) ∨ ∃ s, env.pm2Result = .ok s)
    (hngx : env.nginxResult = generateNginxConfig o true false) :
    generateNginxConfig o true false = .ok (getNginxConfigPath o.projectName)
    ∧ (∀ r1 r2, reloadNginx r1 r2 = .ok ())
    ∧ (deploy env cfg now store).fst.success = true := by
  have hgen : generateNginxConfig o true false = .ok (getNginxConfigPath o.projectName) := by
    unfold generateNginxConfig
    rw [hshape]
    rfl
  refine ⟨hgen, ?_, ?_⟩
  · intro r1 r2
    cases r1 <;> cases r2 <;> rfl
  · rw [(deploy_characterization env cfg now store).1]
    simp only [deployStagesOk, hclone, hana, hinst, hbld, hngx, hgen, isOkE]
    have h1 : decide (a.type ≠ ProjectType.unknown) = true := decide_eq_true hunk
    rcases hpm2 with hfe | ⟨s, hs⟩
    · simp [h1, decide_eq_true hfe]
    · simp [h1, hs, isOkE]

/-- Concrete instantiation of the C2 theorem: a backend shape with a
resolved port, all earlier stages successful, syntax probe failed. -/
theorem nginx_validation_failure_is_warning_witness :
    generateNginxConfig
        ⟨"api", "/var/apps/api", ProjectType.backend,
         ⟨ProjectType.backend, PackageManager.npm, true, true, some "tsc", some "node dist",
          none, none, false, none⟩, some 3000, none, none⟩ true false
      = .ok (getNginxConfigPath "api")
    ∧ (∀ r1 r2, reloadNginx r1 r2 = .ok ())
    ∧ (deploy
        ⟨fun _ => false, .ok "/var/apps/api",
         .ok ⟨ProjectType.backend, PackageManager.npm, true, true, some "tsc",
              some "node dist", none, none, false, none⟩,
         .ok (), .ok (), .ok "api",
         generateNginxConfig
           ⟨"api", "/var/apps/api", ProjectType.backend,
            ⟨ProjectType.backend, PackageManager.npm, true, true, some "tsc",
             some "node dist", none, none, false, none⟩, some 3000, none, none⟩ true false⟩
        c1Cfg 7 []).fst.success = true :=
  nginx_validation_failure_is_warning
    ⟨"api", "/var/apps/api", ProjectType.backend,
     ⟨ProjectType.backend, PackageManager.npm, true, true, some "tsc", some "node dist",
      none, none, false, none⟩, some 3000, none, none⟩
    (NginxShape.proxy 3000) _ c1Cfg 7 []
    ⟨ProjectType.backend, PackageManager.npm, true, true, some "tsc", some "node dist",
     none, none, false, none⟩ "/var/apps/api"
    rfl rfl rfl (by decide) rfl rfl (Or.inr ⟨"api", rfl⟩) rfl

/-! ## The `update` command (src/unnamed/part_002, lines 558-607)

`update --name <name> [--branch <branch>]` loads the record (exit when
missing), re-fetches the repository, restarts the supervisor entry when
one is recorded, and bumps the record.  The commander option declaration
gives `--branch` the default `'main'`, so the handler's
`options.branch || metadata.branch` fallback sees `'main'` whenever the
flag is omitted.  `pullOk` and `pm2RestartOk` are the outcomes of the
external git pull and supervisor restart. -/

/-- The `update` command handler.  Returns the store after the call and
the branch that was pulled. -/
def updateCommand (store : MetadataStore) (name : String) (branchOpt : Option String)
    (pullOk : Bool) (pm2RestartOk : Bool) (now : Nat) :
    Except String (MetadataStore × String) :=
  -- commander applies the declared default before the handler runs
  let optionsBranch : String := branchOpt.getD "main"
  match loadMetadata store name with
  | none => .error ("Proje bulunamadı: " ++ name)
  | some metadata =>
    let pullBranch := if optionsBranch ≠ "" then optionsBranch else metadata.branch
    if pullOk = false then .error "Git pull failed"
    else if metadata.pm2ProcessName.isSome = true ∧ pm2RestartOk = false then
      .error "pm2 restart failed"
    else
      match updateMetadata store name (fun m => { m with branch := pullBranch }) now with
      | (.error e, _) => .error e
      | (.ok _, store') => .ok (store', pullBranch)

/-- The stored record of a project deployed from the `develop` branch. -/
def c5Record : ProjectMetadata :=
  ⟨"api", "https://github.com/u/r", "develop", ProjectType.backend, some 3000, "/",
   1, 1, some "api", some "/etc/nginx/conf.d/api.conf", some "production", some false⟩

/-- C5 failing input: `update --name api` without `--branch` on a record
whose stored branch is `develop` pulls and stores `main` — the commander
default makes the `options.branch || metadata.branch` fallback dead, so
the stored branch is never reused. -/
theorem update_pulls_default_branch_not_stored :
    updateCommand [("api", c5Record)] "api" none true true 5
      = .ok ([("api", { c5Record with branch := "main", updatedAt := 5 })], "main")
    ∧ c5Record.branch = "develop"
    ∧ ("main" : String) ≠ "develop" := by
  refine ⟨rfl, rfl, by decide⟩
